import Mathlib

/-!
Shallow embedding of the two ColegiosPro service-worker scripts
(src/static/sw.js and the unnamed variant, called "landing" below after its
cache name "colegiospro-landing-v1").  Requests, responses and the Cache
Storage are modelled explicitly; each event handler of the scripts becomes a
pure function from its inputs (network behaviour, current cache storage,
event payload) to its observable outcome (served response, shown
notification, click action, new cache storage, worker flags).
-/

namespace ColegiosPro

/-- An HTTP request as the fetch handler sees it: a method and a URL. -/
structure Request where
  method : String
  url : String
deriving DecidableEq, Repr

/-- A network response: its ok flag (status in the 200 range) and body. -/
structure Response where
  ok : Bool
  body : String
deriving DecidableEq, Repr

/-- One cache bucket: an association list from requests to stored responses. -/
abbrev Cache := List (Request × Response)

/-- The Cache Storage: named buckets, in creation order. -/
abbrev CacheStorage := List (String × Cache)

/-- JavaScript `s.includes(pat)` on the underlying character lists:
`startsWithList pat s` is true when `pat` is an initial run of `s`. -/
def startsWithList : List Char → List Char → Bool
  | [], _ => true
  | _ :: _, [] => false
  | p :: ps, c :: cs => (p == c) && startsWithList ps cs

/-- Whether `pat` occurs as a contiguous run inside `s`. -/
def containsRun : List Char → List Char → Bool
  | [], pat => startsWithList pat []
  | s@(_ :: rest), pat => startsWithList pat s || containsRun rest pat

/-- JavaScript `s.includes(pat)` for strings. -/
def strIncludes (s pat : String) : Bool := containsRun s.data pat.data

/-- `Cache.match`: the stored response for the first entry keyed by `req`. -/
def cacheMatch (c : Cache) (req : Request) : Option Response :=
  match c with
  | [] => none
  | e :: rest => if e.1 = req then some e.2 else cacheMatch rest req

/-- `Cache.put`: replace the entry keyed by `key`, or append a new one. -/
def cachePut (c : Cache) (key : Request) (res : Response) : Cache :=
  match c with
  | [] => [(key, res)]
  | e :: rest => if e.1 = key then (key, res) :: rest else e :: cachePut rest key res

/-- The names of the existing buckets, `caches.keys()`. -/
def cachesKeys (cs : CacheStorage) : List String := cs.map Prod.fst

/-- `caches.delete(n)`: remove the bucket named `n`. -/
def cachesDelete (cs : CacheStorage) (n : String) : CacheStorage :=
  cs.filter (fun b => b.1 != n)

/-- `caches.open(n)`: create the bucket named `n` when absent. -/
def csOpen (cs : CacheStorage) (n : String) : CacheStorage :=
  match cs with
  | [] => [(n, [])]
  | b :: rest => if b.1 = n then b :: rest else b :: csOpen rest n

/-- The contents of the bucket named `n` (empty when absent). -/
def csLookup (cs : CacheStorage) (n : String) : Cache :=
  match cs with
  | [] => []
  | b :: rest => if b.1 = n then b.2 else csLookup rest n

/-- Replace the contents of the bucket named `n` by `f` of them. -/
def csUpdate (cs : CacheStorage) (n : String) (f : Cache → Cache) : CacheStorage :=
  match cs with
  | [] => []
  | b :: rest => if b.1 = n then (b.1, f b.2) :: rest else b :: csUpdate rest n f

/-- `caches.open(n)` followed by `cache.put(key, res)` on the opened bucket. -/
def csPut (cs : CacheStorage) (n : String) (key : Request) (res : Response) : CacheStorage :=
  match cs with
  | [] => [(n, cachePut [] key res)]
  | b :: rest => if b.1 = n then (b.1, cachePut b.2 key res) :: rest else b :: csPut rest n key res

/-- `caches.match(req)`: the first matching entry across buckets in order. -/
def csMatch (cs : CacheStorage) (req : Request) : Option Response :=
  match cs with
  | [] => none
  | b :: rest =>
      match cacheMatch b.2 req with
      | some r => some r
      | none => csMatch rest req

/-- `cache.addAll(urls)` given the network `net`.  Per the Cache API a batch
cache operation is atomic: every URL is fetched with GET and must resolve
with an ok response, otherwise the whole operation rejects and commits
nothing; `none` is that rejection. -/
def cacheAddAll (net : String → Option Response) : Cache → List String → Option Cache
  | c, [] => some c
  | c, u :: rest =>
      match net u with
      | some r => if r.ok then cacheAddAll net (cachePut c (Request.mk "GET" u) r) rest else none
      | none => none

/-- The asset manifest of the static variant (src/static/sw.js). -/
def staticAssets : List String :=
  ["/", "/demo", "/manifest.json", "/static/img/duilio-cta.jpg",
   "/static/img/duilio-chat.jpg", "/static/img/icon-192.png"]

/-- The asset manifest of the landing variant. -/
def landingAssets : List String :=
  ["/", "/index.html", "/manifest.json",
   "https://fonts.googleapis.com/css2?family=Outfit:wght@300;400;500;600;700;800;900&family=DM+Sans:ital,wght@0,400;0,500;0,600;0,700;1,400&display=swap"]

/-- The install handler of the static variant, parameterised by its cache
name and manifest: open the bucket, run addAll, and catch (log and swallow)
any failure.  The returned Bool is whether install completed, i.e. whether
the promise passed to waitUntil resolved. -/
def installStaticWith (n : String) (assets : List String) (net : String → Option Response)
    (cs : CacheStorage) : CacheStorage × Bool :=
  let cs1 := csOpen cs n
  match cacheAddAll net (csLookup cs1 n) assets with
  | some c => (csUpdate cs1 n (fun _ => c), true)
  | none => (cs1, true)

/-- The install handler of the landing variant: same, but with no catch, so
an addAll rejection rejects the waitUntil promise and install fails. -/
def installLandingWith (n : String) (assets : List String) (net : String → Option Response)
    (cs : CacheStorage) : CacheStorage × Bool :=
  let cs1 := csOpen cs n
  match cacheAddAll net (csLookup cs1 n) assets with
  | some c => (csUpdate cs1 n (fun _ => c), true)
  | none => (cs1, false)

def handleInstall_static : (String → Option Response) → CacheStorage → CacheStorage × Bool :=
  installStaticWith "colegiospro-v1" staticAssets

def handleInstall_landing : (String → Option Response) → CacheStorage → CacheStorage × Bool :=
  installLandingWith "colegiospro-landing-v1" landingAssets

/-- The activate handler, identical in both variants up to the cache name:
delete every bucket whose name differs from `n`.  (clients.claim has no
cache-storage effect and is not modelled.) -/
def handleActivateWith (n : String) (cs : CacheStorage) : CacheStorage :=
  (((cachesKeys cs).filter (fun k => k != n)).foldl cachesDelete cs)

def handleActivate_static : CacheStorage → CacheStorage :=
  handleActivateWith "colegiospro-v1"

def handleActivate_landing : CacheStorage → CacheStorage :=
  handleActivateWith "colegiospro-landing-v1"

/-- What the page observes from an intercepted fetch. -/
inductive FetchResult where
  /-- The handler returned without respondWith: default browser handling. -/
  | passthrough : FetchResult
  /-- respondWith delivered this response. -/
  | served : Response → FetchResult
  /-- respondWith received no response (network failed, no cache entry). -/
  | failed : FetchResult
deriving DecidableEq, Repr

/-- The fetch handler of the static variant, parameterised by the cache
name: skip non-GET requests and URLs containing "/ws/"; otherwise
network-first, caching ok responses under `n`, falling back to
`caches.match` on network failure. -/
def fetchStaticWith (n : String) (net : Request → Option Response) (cs : CacheStorage)
    (req : Request) : FetchResult × CacheStorage :=
  if req.method ≠ "GET" then (FetchResult.passthrough, cs)
  else if strIncludes req.url "/ws/" then (FetchResult.passthrough, cs)
  else
    match net req with
    | some res =>
        if res.ok then (FetchResult.served res, csPut cs n req res)
        else (FetchResult.served res, cs)
    | none =>
        match csMatch cs req with
        | some r => (FetchResult.served r, cs)
        | none => (FetchResult.failed, cs)

/-- The fetch handler of the landing variant: same, without the "/ws/"
exclusion. -/
def fetchLandingWith (n : String) (net : Request → Option Response) (cs : CacheStorage)
    (req : Request) : FetchResult × CacheStorage :=
  if req.method ≠ "GET" then (FetchResult.passthrough, cs)
  else
    match net req with
    | some res =>
        if res.ok then (FetchResult.served res, csPut cs n req res)
        else (FetchResult.served res, cs)
    | none =>
        match csMatch cs req with
        | some r => (FetchResult.served r, cs)
        | none => (FetchResult.failed, cs)

def handleFetch_static : (Request → Option Response) → CacheStorage → Request →
    FetchResult × CacheStorage :=
  fetchStaticWith "colegiospro-v1"

def handleFetch_landing : (Request → Option Response) → CacheStorage → Request →
    FetchResult × CacheStorage :=
  fetchLandingWith "colegiospro-landing-v1"

/-- JavaScript `x || d` for an optional string field: the default is used
when the field is absent or falsy (for strings, empty). -/
def jsOr (v : Option String) (d : String) : String :=
  match v with
  | some s => if s = "" then d else s
  | none => d

/-- JavaScript `x || null` for an optional string field. -/
def jsOrNull (v : Option String) : Option String :=
  match v with
  | some s => if s = "" then none else some s
  | none => none

/-- A push payload that parsed as JSON: the five optional fields the
handlers read. -/
structure PushPayload where
  title : Option String
  body : Option String
  icon : Option String
  url : Option String
  chatMessage : Option String
deriving DecidableEq, Repr

/-- The body of a push event: absent, a JSON object, or unparsable text
(event.data.json() throws, event.data.text() gives the literal text). -/
inductive PushData where
  | absent : PushData
  | json : PushPayload → PushData
  | text : String → PushData
deriving DecidableEq, Repr

/-- The data envelope attached to a shown notification. -/
structure NotifData where
  url : String
  chatMessage : Option String
deriving DecidableEq, Repr

/-- The notification handed to showNotification: its title and the option
fields the scripts set.  An absent option field is `none` or `[]`. -/
structure ShownNotif where
  title : String
  body : String
  icon : String
  badge : Option String
  vibrate : List Nat
  data : Option NotifData
  actions : List (String × String)
deriving DecidableEq, Repr

/-- The push handler of the static variant, parameterised by its default
icon and badge paths.  With no event data the fallback object (title, body,
icon only) is shown; with JSON data the full object is built with
`||`-defaulted fields; when json() throws, the fallback object with its body
replaced by the literal text is shown. -/
def pushStaticWith (icon badge : String) (d : PushData) : ShownNotif :=
  match d with
  | PushData.absent =>
      { title := "ColegiosPro", body := "Tiene un nuevo mensaje", icon := icon,
        badge := none, vibrate := [], data := none, actions := [] }
  | PushData.json p =>
      { title := jsOr p.title "ColegiosPro",
        body := jsOr p.body "Tiene un nuevo mensaje",
        icon := jsOr p.icon icon,
        badge := some badge,
        vibrate := [200, 100, 200],
        data := some { url := jsOr p.url "/", chatMessage := jsOrNull p.chatMessage },
        actions := [("open", "Abrir"), ("reply", "Responder")] }
  | PushData.text s =>
      { title := "ColegiosPro", body := s, icon := icon,
        badge := none, vibrate := [], data := none, actions := [] }

/-- The push handler of the landing variant.  It builds the same `data`
object but passes explicit options to showNotification, in particular
`badge: data.badge || data.icon`: in the fallback cases, where `data.badge`
is undefined, the badge therefore falls back to the icon path instead of
being absent. -/
def pushLandingWith (icon badge : String) (d : PushData) : ShownNotif :=
  match d with
  | PushData.absent =>
      { title := "ColegiosPro", body := "Tiene un nuevo mensaje", icon := icon,
        badge := some (jsOr none icon), vibrate := [], data := none, actions := [] }
  | PushData.json p =>
      { title := jsOr p.title "ColegiosPro",
        body := jsOr p.body "Tiene un nuevo mensaje",
        icon := jsOr p.icon icon,
        badge := some (jsOr (some badge) (jsOr p.icon icon)),
        vibrate := [200, 100, 200],
        data := some { url := jsOr p.url "/", chatMessage := jsOrNull p.chatMessage },
        actions := [("open", "Abrir"), ("reply", "Responder")] }
  | PushData.text s =>
      { title := "ColegiosPro", body := s, icon := icon,
        badge := some (jsOr none icon), vibrate := [], data := none, actions := [] }

def handlePush_static : PushData → ShownNotif :=
  pushStaticWith "/static/img/icon-192.png" "/static/img/icon-192.png"

def handlePush_landing : PushData → ShownNotif :=
  pushLandingWith "/icon-192.png" "/icon-192.png"

/-- An open window client, identified by its URL. -/
structure ClientWin where
  url : String
deriving DecidableEq, Repr

/-- What a notification click does after dismissing the notification. -/
inductive ClickAction where
  /-- The client was focused and no message was posted. -/
  | focusOnly : ClientWin → ClickAction
  /-- The client was focused and received one OPEN_CHAT message with this
  chat message. -/
  | focusAndMessage : ClientWin → String → ClickAction
  /-- clients.openWindow was called on this URL. -/
  | openWindow : String → ClickAction
deriving DecidableEq, Repr

/-- The outcome of a notification click: whether the notification was
closed, and the single action taken. -/
structure ClickResult where
  closed : Bool
  action : ClickAction
deriving DecidableEq, Repr

/-- The notificationclick handler of the static variant: close the
notification, then focus the first open client whose URL contains the
origin, posting OPEN_CHAT when the data envelope carries a truthy
chatMessage; with no matching client, open a window at
`data?.url || "/"`. -/
def handleClick_static (origin : String) (nd : Option NotifData) (cls : List ClientWin) :
    ClickResult :=
  let url := jsOr (nd.map (fun d => d.url)) "/"
  match cls.find? (fun c => strIncludes c.url origin) with
  | some c =>
      match nd with
      | some d =>
          match d.chatMessage with
          | some m =>
              if m = "" then { closed := true, action := ClickAction.focusOnly c }
              else { closed := true, action := ClickAction.focusAndMessage c m }
          | none => { closed := true, action := ClickAction.focusOnly c }
      | none => { closed := true, action := ClickAction.focusOnly c }
  | none => { closed := true, action := ClickAction.openWindow url }

/-- The notificationclick handler of the landing variant: its source is the
same, line for line. -/
def handleClick_landing (origin : String) (nd : Option NotifData) (cls : List ClientWin) :
    ClickResult :=
  let url := jsOr (nd.map (fun d => d.url)) "/"
  match cls.find? (fun c => strIncludes c.url origin) with
  | some c =>
      match nd with
      | some d =>
          match d.chatMessage with
          | some m =>
              if m = "" then { closed := true, action := ClickAction.focusOnly c }
              else { closed := true, action := ClickAction.focusAndMessage c m }
          | none => { closed := true, action := ClickAction.focusOnly c }
      | none => { closed := true, action := ClickAction.focusOnly c }
  | none => { closed := true, action := ClickAction.openWindow url }

/-- The data of a message event: an object with an optional `type` field,
or a nullish value. -/
inductive MsgData where
  | obj : Option String → MsgData
  | nullish : MsgData
deriving DecidableEq, Repr

/-- The worker's mutable observables: the cache storage and whether
skipWaiting has been called. -/
structure WorkerState where
  store : CacheStorage
  skipW : Bool
deriving DecidableEq, Repr

/-- The message handler, present only in the landing variant:
`event.data && event.data.type === "SKIP_WAITING"` calls skipWaiting. -/
def handleMessage_landing (m : MsgData) (w : WorkerState) : WorkerState :=
  match m with
  | MsgData.obj (some t) => if t = "SKIP_WAITING" then { w with skipW := true } else w
  | _ => w

/-- One event delivered to a worker. -/
inductive SWEvent where
  | installEv : (String → Option Response) → SWEvent
  | activateEv : SWEvent
  | fetchEv : (Request → Option Response) → Request → SWEvent
  | pushEv : PushData → SWEvent
  | clickEv : Option NotifData → List ClientWin → SWEvent
  | messageEv : MsgData → SWEvent

/-- The state transition of the static variant on one event.  Install also
calls self.skipWaiting(); push and notificationclick do not touch the
store; the static script registers no message listener. -/
def stepStatic (e : SWEvent) (w : WorkerState) : WorkerState :=
  match e with
  | SWEvent.installEv net => { store := (handleInstall_static net w.store).1, skipW := true }
  | SWEvent.activateEv => { w with store := handleActivate_static w.store }
  | SWEvent.fetchEv net req => { w with store := (handleFetch_static net w.store req).2 }
  | SWEvent.pushEv _ => w
  | SWEvent.clickEv _ _ => w
  | SWEvent.messageEv _ => w

/-- The state transition of the landing variant on one event: as the static
one, but with its own cache name and with the message listener. -/
def stepLanding (e : SWEvent) (w : WorkerState) : WorkerState :=
  match e with
  | SWEvent.installEv net => { store := (handleInstall_landing net w.store).1, skipW := true }
  | SWEvent.activateEv => { w with store := handleActivate_landing w.store }
  | SWEvent.fetchEv net req => { w with store := (handleFetch_landing net w.store req).2 }
  | SWEvent.pushEv _ => w
  | SWEvent.clickEv _ _ => w
  | SWEvent.messageEv m => handleMessage_landing m w

/-! ## Helper lemmas about the cache operations -/

theorem cacheMatch_cachePut_self (c : Cache) (key : Request) (res : Response) :
    cacheMatch (cachePut c key res) key = some res := by
  induction c with
  | nil => simp [cachePut, cacheMatch]
  | cons e rest ih =>
      by_cases h : e.1 = key
      · simp [cachePut, h, cacheMatch]
      · simp [cachePut, h, cacheMatch, ih]

theorem cacheMatch_cachePut_ne (c : Cache) (key req : Request) (res : Response)
    (h : req ≠ key) : cacheMatch (cachePut c key res) req = cacheMatch c req := by
  induction c with
  | nil => simp [cachePut, cacheMatch, Ne.symm h]
  | cons e rest ih =>
      by_cases he : e.1 = key
      · simp [cachePut, he, cacheMatch, Ne.symm h]
      · by_cases her : e.1 = req
        · simp [cachePut, he, cacheMatch, her, h]
        · simp [cachePut, he, cacheMatch, her, ih, h]

theorem mem_cachesDelete (cs : CacheStorage) (n : String) (b : String × Cache) :
    b ∈ cachesDelete cs n ↔ b ∈ cs ∧ b.1 ≠ n := by
  simp [cachesDelete, List.mem_filter, bne_iff_ne]

theorem mem_foldl_cachesDelete (ks : List String) (cs : CacheStorage) (b : String × Cache) :
    b ∈ ks.foldl cachesDelete cs ↔ b ∈ cs ∧ b.1 ∉ ks := by
  induction ks generalizing cs with
  | nil => simp
  | cons k ks ih =>
      rw [List.foldl_cons, ih, mem_cachesDelete]
      simp only [List.mem_cons, not_or]
      tauto

theorem mem_cachesKeys (cs : CacheStorage) (k : String) :
    k ∈ cachesKeys cs ↔ ∃ b ∈ cs, b.1 = k := by
  simp only [cachesKeys, List.mem_map]

theorem mem_handleActivateWith (n : String) (cs : CacheStorage) (b : String × Cache) :
    b ∈ handleActivateWith n cs ↔ b ∈ cs ∧ b.1 = n := by
  unfold handleActivateWith
  rw [mem_foldl_cachesDelete]
  constructor
  · rintro ⟨hb, hn⟩
    refine ⟨hb, ?_⟩
    by_contra hne
    apply hn
    rw [List.mem_filter, bne_iff_ne]
    exact ⟨(mem_cachesKeys cs b.1).mpr ⟨b, hb, rfl⟩, hne⟩
  · rintro ⟨hb, hbn⟩
    refine ⟨hb, ?_⟩
    intro hmem
    rw [List.mem_filter, bne_iff_ne] at hmem
    exact hmem.2 hbn

/-! csOpen, csLookup, csUpdate, csPut -/

theorem mem_keys_csOpen (cs : CacheStorage) (n m : String) :
    m ∈ cachesKeys (csOpen cs n) ↔ m ∈ cachesKeys cs ∨ m = n := by
  induction cs with
  | nil => simp [csOpen, cachesKeys]
  | cons b rest ih =>
      by_cases h : b.1 = n
      · subst h
        simp [csOpen, cachesKeys]
        tauto
      · simp [csOpen, h, cachesKeys] at ih ⊢
        tauto

theorem csLookup_csOpen_ne (cs : CacheStorage) (n m : String) (h : m ≠ n) :
    csLookup (csOpen cs n) m = csLookup cs m := by
  induction cs with
  | nil => simp [csOpen, csLookup, Ne.symm h]
  | cons b rest ih =>
      by_cases hb : b.1 = n
      · simp [csOpen, hb, csLookup]
      · by_cases hm : b.1 = m
        · simp [csOpen, hb, csLookup, hm, h]
        · simp [csOpen, hb, csLookup, hm, ih]

theorem csLookup_csOpen_self (cs : CacheStorage) (n : String) :
    csLookup (csOpen cs n) n = csLookup cs n := by
  induction cs with
  | nil => simp [csOpen, csLookup]
  | cons b rest ih =>
      by_cases hb : b.1 = n
      · simp [csOpen, hb, csLookup]
      · simp [csOpen, hb, csLookup, ih]

theorem mem_keys_csUpdate (cs : CacheStorage) (n m : String) (f : Cache → Cache) :
    m ∈ cachesKeys (csUpdate cs n f) ↔ m ∈ cachesKeys cs := by
  induction cs with
  | nil => simp [csUpdate]
  | cons b rest ih =>
      by_cases hb : b.1 = n
      · simp [csUpdate, hb, cachesKeys]
      · simp [csUpdate, hb, cachesKeys] at ih ⊢
        tauto

theorem csLookup_csUpdate_ne (cs : CacheStorage) (n m : String) (f : Cache → Cache)
    (h : m ≠ n) : csLookup (csUpdate cs n f) m = csLookup cs m := by
  induction cs with
  | nil => simp [csUpdate]
  | cons b rest ih =>
      by_cases hb : b.1 = n
      · have hbm : b.1 ≠ m := by rw [hb]; exact Ne.symm h
        simp [csUpdate, hb, csLookup, hbm, Ne.symm h]
      · by_cases hm : b.1 = m
        · simp [csUpdate, hb, csLookup, hm, h]
        · simp [csUpdate, hb, csLookup, hm, ih]

theorem csLookup_csUpdate_self (cs : CacheStorage) (n : String) (f : Cache → Cache)
    (h : n ∈ cachesKeys cs) : csLookup (csUpdate cs n f) n = f (csLookup cs n) := by
  induction cs with
  | nil => simp [cachesKeys] at h
  | cons b rest ih =>
      by_cases hb : b.1 = n
      · simp [csUpdate, hb, csLookup]
      · simp [cachesKeys, hb] at h
        rcases h with h | h
        · exact absurd h.symm hb
        · simp [csUpdate, hb, csLookup, ih (by simpa [cachesKeys] using h)]

theorem mem_keys_csPut (cs : CacheStorage) (n m : String) (key : Request) (res : Response) :
    m ∈ cachesKeys (csPut cs n key res) ↔ m ∈ cachesKeys cs ∨ m = n := by
  induction cs with
  | nil => simp [csPut, cachesKeys]
  | cons b rest ih =>
      by_cases hb : b.1 = n
      · subst hb
        simp [csPut, cachesKeys]
        tauto
      · simp [csPut, hb, cachesKeys] at ih ⊢
        tauto

theorem csLookup_csPut_ne (cs : CacheStorage) (n m : String) (key : Request) (res : Response)
    (h : m ≠ n) : csLookup (csPut cs n key res) m = csLookup cs m := by
  induction cs with
  | nil => simp [csPut, csLookup, Ne.symm h]
  | cons b rest ih =>
      by_cases hb : b.1 = n
      · have hbm : b.1 ≠ m := by rw [hb]; exact Ne.symm h
        simp [csPut, hb, csLookup, hbm, Ne.symm h]
      · by_cases hm : b.1 = m
        · simp [csPut, hb, csLookup, hm, h]
        · simp [csPut, hb, csLookup, hm, ih]

theorem cacheMatch_csPut_self (cs : CacheStorage) (n : String) (key : Request)
    (res : Response) : cacheMatch (csLookup (csPut cs n key res) n) key = some res := by
  induction cs with
  | nil => simp [csPut, csLookup, cacheMatch_cachePut_self]
  | cons b rest ih =>
      by_cases hb : b.1 = n
      · simp [csPut, hb, csLookup, cacheMatch_cachePut_self]
      · simp [csPut, hb, csLookup, ih]

/-! cacheAddAll -/

theorem cacheAddAll_isSome (net : String → Option Response) (urls : List String)
    (h : ∀ a ∈ urls, ∃ r, net a = some r ∧ r.ok = true) (c : Cache) :
    ∃ c2, cacheAddAll net c urls = some c2 := by
  induction urls generalizing c with
  | nil => exact ⟨c, rfl⟩
  | cons u rest ih =>
      obtain ⟨r, hr, hok⟩ := h u (List.mem_cons_self u rest)
      rw [cacheAddAll, hr]
      simp only [hok, if_true]
      exact ih (fun a ha => h a (List.mem_cons_of_mem u ha)) _

theorem cacheAddAll_match_notmem (net : String → Option Response) (urls : List String)
    (c c2 : Cache) (hadd : cacheAddAll net c urls = some c2) (req : Request)
    (hreq : ∀ u ∈ urls, req ≠ Request.mk "GET" u) :
    cacheMatch c2 req = cacheMatch c req := by
  induction urls generalizing c with
  | nil => simp [cacheAddAll] at hadd; rw [hadd]
  | cons u rest ih =>
      cases hnet : net u with
      | none => simp [cacheAddAll, hnet] at hadd
      | some r =>
          by_cases hok : r.ok
          · simp only [cacheAddAll, hnet, hok, if_true] at hadd
            rw [ih _ hadd (fun v hv => hreq v (List.mem_cons_of_mem u hv))]
            exact cacheMatch_cachePut_ne _ _ _ _ (hreq u (List.mem_cons_self u rest))
          · simp [cacheAddAll, hnet, hok] at hadd

theorem cacheAddAll_match_mem (net : String → Option Response) (urls : List String)
    (c c2 : Cache) (hadd : cacheAddAll net c urls = some c2) (a : String) (ha : a ∈ urls) :
    cacheMatch c2 (Request.mk "GET" a) = net a := by
  induction urls generalizing c with
  | nil => simp at ha
  | cons u rest ih =>
      cases hnet : net u with
      | none => simp [cacheAddAll, hnet] at hadd
      | some r =>
          by_cases hok : r.ok
          · simp only [cacheAddAll, hnet, hok, if_true] at hadd
            rcases List.mem_cons.mp ha with rfl | hmem
            · by_cases hin : a ∈ rest
              · exact ih _ hadd hin
              · rw [cacheAddAll_match_notmem net rest _ _ hadd (Request.mk "GET" a)
                  (fun v hv => by
                    intro hv2
                    apply hin
                    have : a = v := congrArg Request.url hv2
                    rw [this]; exact hv)]
                rw [cacheMatch_cachePut_self, hnet]
            · exact ih _ hadd hmem
          · simp [cacheAddAll, hnet, hok] at hadd

/-- Evaluation of the static fetch handler on an intercepted request: a GET
whose URL does not contain "/ws/" reaches the network-first logic. -/
theorem fetchStaticWith_eval (n : String) (net : Request → Option Response) (cs : CacheStorage)
    (req : Request) (hm : req.method = "GET") (hw : strIncludes req.url "/ws/" = false) :
    fetchStaticWith n net cs req =
      (match net req with
       | some res =>
           if res.ok then (FetchResult.served res, csPut cs n req res)
           else (FetchResult.served res, cs)
       | none =>
           match csMatch cs req with
           | some r => (FetchResult.served r, cs)
           | none => (FetchResult.failed, cs)) := by
  unfold fetchStaticWith
  rw [if_neg (by simp [hm]), if_neg (by simp [hw])]

/-! ## Claim theorems -/

/-- Claim C3: on activation each variant deletes every bucket whose name
differs from its version string, so every bucket name still enumerable
afterwards equals the current version — two independent universals, one
per variant, each over any storage of its own. -/
theorem C3_activate_only_current (cs cs2 : CacheStorage) (k k2 : String) :
    (k ∈ cachesKeys (handleActivate_static cs) → k = "colegiospro-v1")
    ∧ (k2 ∈ cachesKeys (handleActivate_landing cs2) → k2 = "colegiospro-landing-v1") := by
  constructor
  · intro hk
    simp only [handleActivate_static] at hk
    rcases (mem_cachesKeys _ _).mp hk with ⟨b, hb, rfl⟩
    exact ((mem_handleActivateWith _ cs b).mp hb).2
  · intro hk2
    simp only [handleActivate_landing] at hk2
    rcases (mem_cachesKeys _ _).mp hk2 with ⟨b2, hb2, rfl⟩
    exact ((mem_handleActivateWith _ cs2 b2).mp hb2).2

/-- Witness for C3: each variant activated on its own canonical storage —
a stale vN-1 bucket next to the current one, with no bucket of the other
variant present — keeps its current bucket enumerable and the conclusion
holds there. -/
theorem C3_activate_only_current_witness :
    ("colegiospro-v1" ∈ cachesKeys (handleActivate_static
        [("colegiospro-v0", []), ("colegiospro-v1", [])])
      ∧ "colegiospro-v1" = "colegiospro-v1")
    ∧ ("colegiospro-landing-v1" ∈ cachesKeys (handleActivate_landing
        [("colegiospro-landing-v0", []), ("colegiospro-landing-v1", [])])
      ∧ "colegiospro-landing-v1" = "colegiospro-landing-v1") :=
  ⟨⟨by decide,
    (C3_activate_only_current [("colegiospro-v0", []), ("colegiospro-v1", [])]
      [("colegiospro-landing-v0", []), ("colegiospro-landing-v1", [])]
      "colegiospro-v1" "colegiospro-landing-v1").1 (by decide)⟩,
   ⟨by decide,
    (C3_activate_only_current [("colegiospro-v0", []), ("colegiospro-v1", [])]
      [("colegiospro-landing-v0", []), ("colegiospro-landing-v1", [])]
      "colegiospro-v1" "colegiospro-landing-v1").2 (by decide)⟩⟩

/-- Claim C5: a push event whose body is not valid JSON (so json() throws)
still yields a notification; its body is the literal message text and its
title is the default "ColegiosPro".  Holds in both variants. -/
theorem C5_push_text_fallback (s : String) :
    (handlePush_static (PushData.text s)).title = "ColegiosPro"
    ∧ (handlePush_static (PushData.text s)).body = s
    ∧ (handlePush_landing (PushData.text s)).title = "ColegiosPro"
    ∧ (handlePush_landing (PushData.text s)).body = s :=
  ⟨rfl, rfl, rfl, rfl⟩

/-- Counterexample to C1 as stated: a GET request whose network fetch
resolves (the network "succeeds") with a non-ok response is served to the
page, yet the cache bucket afterwards has no entry for the request, because
only ok responses are stored. -/
theorem C1_cex :
    (handleFetch_static (fun _ => some (Response.mk false "missing")) []
        (Request.mk "GET" "/x")).1 = FetchResult.served (Response.mk false "missing")
    ∧ csMatch (handleFetch_static (fun _ => some (Response.mk false "missing")) []
        (Request.mk "GET" "/x")).2 (Request.mk "GET" "/x") = none :=
  ⟨rfl, rfl⟩

/-- Claim C1 (amended): for every intercepted GET request (method GET, URL
without "/ws/"), if the network resolves the response is served, and it is
additionally written to the version bucket exactly when it is ok; if the
network fails, a previously cached entry for that exact request is served
when one exists, and otherwise the fetch fails; the storage is unchanged in
every non-caching case. -/
theorem C1_fetch_network_first (net : Request → Option Response) (cs : CacheStorage)
    (req : Request) (hm : req.method = "GET")
    (hw : strIncludes req.url "/ws/" = false) :
    (∀ res, net req = some res →
        (handleFetch_static net cs req).1 = FetchResult.served res
        ∧ (res.ok = true →
            cacheMatch (csLookup (handleFetch_static net cs req).2 "colegiospro-v1") req
              = some res)
        ∧ (res.ok = false → (handleFetch_static net cs req).2 = cs))
    ∧ (net req = none →
        (handleFetch_static net cs req).2 = cs
        ∧ (∀ r, csMatch cs req = some r →
            (handleFetch_static net cs req).1 = FetchResult.served r)
        ∧ (csMatch cs req = none →
            (handleFetch_static net cs req).1 = FetchResult.failed)) := by
  have he := fetchStaticWith_eval "colegiospro-v1" net cs req hm hw
  constructor
  · intro res hres
    by_cases hok : res.ok
    · refine ⟨?_, fun _ => ?_, fun hf => ?_⟩
      · simp only [handleFetch_static, he, hres, hok, if_true]
      · simp only [handleFetch_static, he, hres, hok, if_true]
        exact cacheMatch_csPut_self cs "colegiospro-v1" req res
      · rw [hok] at hf; exact absurd hf (by simp)
    · refine ⟨?_, fun ht => absurd ht hok, fun _ => ?_⟩
      · simp only [handleFetch_static, he, hres, hok, if_false, Bool.false_eq_true]
      · simp only [handleFetch_static, he, hres, hok, if_false, Bool.false_eq_true]
  · intro hres
    refine ⟨?_, fun r hr => ?_, fun hr => ?_⟩
    · simp only [handleFetch_static, he, hres]
      cases hcm : csMatch cs req <;> simp
    · simp only [handleFetch_static, he, hres, hr]
    · simp only [handleFetch_static, he, hres, hr]

/-- Witness for C1: a GET request served from the network and found in the
bucket afterwards. -/
theorem C1_fetch_network_first_witness :
    ((Request.mk "GET" "/app").method = "GET"
      ∧ strIncludes (Request.mk "GET" "/app").url "/ws/" = false)
    ∧ ((handleFetch_static (fun _ => some (Response.mk true "page")) []
          (Request.mk "GET" "/app")).1 = FetchResult.served (Response.mk true "page")
      ∧ cacheMatch (csLookup (handleFetch_static (fun _ => some (Response.mk true "page")) []
          (Request.mk "GET" "/app")).2 "colegiospro-v1") (Request.mk "GET" "/app")
          = some (Response.mk true "page")) := by
  have h := (C1_fetch_network_first (fun _ => some (Response.mk true "page")) []
    (Request.mk "GET" "/app") rfl (by decide)).1 (Response.mk true "page") rfl
  exact ⟨⟨rfl, by decide⟩, h.1, h.2.1 rfl⟩

/-- Counterexample to C2 as stated: with a network failing only on "/demo",
the static install still completes but the successfully fetched "/" is not
retrievable afterwards (addAll is an atomic batch, so individually failed
assets are not "merely absent"); and in the landing variant, whose install
has no catch, a single failing asset ("/index.html") fails install as a
whole. -/
theorem C2_cex :
    (handleInstall_static (fun u => if u = "/demo" then none else some (Response.mk true u))
        []).2 = true
    ∧ (fun u => if u = "/demo" then none else some (Response.mk true u)) "/"
        = some (Response.mk true "/")
    ∧ cacheMatch (csLookup (handleInstall_static
          (fun u => if u = "/demo" then none else some (Response.mk true u)) []).1
          "colegiospro-v1") (Request.mk "GET" "/") = none
    ∧ (handleInstall_landing
          (fun u => if u = "/index.html" then none else some (Response.mk true u)) []).2
        = false :=
  ⟨rfl, rfl, rfl, rfl⟩

/-- Claim C2 (amended): the static install never fails, whatever the
network does (the addAll rejection is caught and swallowed); and when every
manifest asset fetches successfully with an ok response, each asset is
afterwards retrievable from the version bucket with exactly the fetched
response.  (A single failure, however, leaves the whole batch uncommitted,
and the landing variant's install fails outright: see the
counterexample.) -/
theorem C2_install_best_effort (net net2 : String → Option Response) (cs : CacheStorage)
    (h : ∀ a ∈ staticAssets, ∃ r, net a = some r ∧ r.ok = true) :
    (handleInstall_static net2 cs).2 = true
    ∧ ∀ a ∈ staticAssets,
        cacheMatch (csLookup (handleInstall_static net cs).1 "colegiospro-v1")
          (Request.mk "GET" a) = net a := by
  constructor
  · rcases hadd : cacheAddAll net2
        (csLookup (csOpen cs "colegiospro-v1") "colegiospro-v1") staticAssets with _ | c <;>
      simp [handleInstall_static, installStaticWith, hadd]
  · intro a ha
    obtain ⟨c2, hadd⟩ := cacheAddAll_isSome net staticAssets h
      (csLookup (csOpen cs "colegiospro-v1") "colegiospro-v1")
    have hstore : (handleInstall_static net cs).1
        = csUpdate (csOpen cs "colegiospro-v1") "colegiospro-v1" (fun _ => c2) := by
      simp [handleInstall_static, installStaticWith, hadd]
    rw [hstore, csLookup_csUpdate_self _ _ _
      ((mem_keys_csOpen cs "colegiospro-v1" "colegiospro-v1").mpr (Or.inr rfl))]
    exact cacheAddAll_match_mem net staticAssets _ c2 hadd a ha

/-- Witness for C2: an all-ok network; install completes and every manifest
asset is retrievable with the fetched body. -/
theorem C2_install_best_effort_witness :
    (∀ a ∈ staticAssets, ∃ r, (fun u => some (Response.mk true u)) a = some r ∧ r.ok = true)
    ∧ ((handleInstall_static (fun u => some (Response.mk true u)) []).2 = true
      ∧ ∀ a ∈ staticAssets,
          cacheMatch (csLookup (handleInstall_static (fun u => some (Response.mk true u)) []).1
            "colegiospro-v1") (Request.mk "GET" a) = (fun u => some (Response.mk true u)) a) :=
  ⟨fun a _ => ⟨Response.mk true a, rfl, rfl⟩,
   C2_install_best_effort (fun u => some (Response.mk true u))
     (fun u => some (Response.mk true u)) [] (fun a _ => ⟨Response.mk true a, rfl, rfl⟩)⟩

/-- Counterexample to C4 as stated: a payload whose `title` field is
present but empty still falls back to the default title, because the
handler uses JavaScript `||`, which also replaces present-but-falsy
values — so the fallback is not "exactly when absent". -/
theorem C4_cex :
    (PushPayload.mk (some "") (some "B") none (some "/chat") none).title ≠ none
    ∧ (handlePush_static (PushData.json
        (PushPayload.mk (some "") (some "B") none (some "/chat") none))).title
      = "ColegiosPro" :=
  ⟨by simp, rfl⟩

/-- Claim C4 (amended): for the payload with title T, body B, url "/chat"
(T, B non-empty) the shown notification has title T, body B and envelope
url "/chat"; and in general each of title, body, icon, url falls back to
its hard-coded default exactly when the field is absent or falsy (empty),
and keeps any non-empty payload value. -/
theorem C4_push_json_fields (p : PushPayload) (T B : String) (hT : T ≠ "") (hB : B ≠ "") :
    ((handlePush_static (PushData.json
          (PushPayload.mk (some T) (some B) none (some "/chat") none))).title = T
      ∧ (handlePush_static (PushData.json
          (PushPayload.mk (some T) (some B) none (some "/chat") none))).body = B
      ∧ (handlePush_static (PushData.json
          (PushPayload.mk (some T) (some B) none (some "/chat") none))).data
        = some (NotifData.mk "/chat" none))
    ∧ ((p.title = none ∨ p.title = some "") →
        (handlePush_static (PushData.json p)).title = "ColegiosPro")
    ∧ (∀ s, p.title = some s → s ≠ "" → (handlePush_static (PushData.json p)).title = s)
    ∧ ((p.body = none ∨ p.body = some "") →
        (handlePush_static (PushData.json p)).body = "Tiene un nuevo mensaje")
    ∧ (∀ s, p.body = some s → s ≠ "" → (handlePush_static (PushData.json p)).body = s)
    ∧ ((p.icon = none ∨ p.icon = some "") →
        (handlePush_static (PushData.json p)).icon = "/static/img/icon-192.png")
    ∧ (∀ s, p.icon = some s → s ≠ "" → (handlePush_static (PushData.json p)).icon = s)
    ∧ ((p.url = none ∨ p.url = some "") →
        (handlePush_static (PushData.json p)).data
          = some (NotifData.mk "/" (jsOrNull p.chatMessage)))
    ∧ (∀ s, p.url = some s → s ≠ "" →
        (handlePush_static (PushData.json p)).data
          = some (NotifData.mk s (jsOrNull p.chatMessage))) := by
  refine ⟨⟨?_, ?_, ?_⟩, ?_, ?_, ?_, ?_, ?_, ?_, ?_, ?_⟩
  · simp [handlePush_static, pushStaticWith, jsOr, hT]
  · simp [handlePush_static, pushStaticWith, jsOr, hB]
  · simp [handlePush_static, pushStaticWith, jsOr, jsOrNull]
  · rintro (h | h) <;> simp [handlePush_static, pushStaticWith, jsOr, h]
  · rintro s hs hne; simp [handlePush_static, pushStaticWith, jsOr, hs, hne]
  · rintro (h | h) <;> simp [handlePush_static, pushStaticWith, jsOr, h]
  · rintro s hs hne; simp [handlePush_static, pushStaticWith, jsOr, hs, hne]
  · rintro (h | h) <;> simp [handlePush_static, pushStaticWith, jsOr, h]
  · rintro s hs hne; simp [handlePush_static, pushStaticWith, jsOr, hs, hne]
  · rintro (h | h) <;> simp [handlePush_static, pushStaticWith, jsOr, h]
  · rintro s hs hne; simp [handlePush_static, pushStaticWith, jsOr, hs, hne]

/-- Witness for C4: the payload of the claim, with non-empty T and B. -/
theorem C4_push_json_fields_witness :
    (("T" : String) ≠ "" ∧ ("B" : String) ≠ "")
    ∧ ((handlePush_static (PushData.json
          (PushPayload.mk (some "T") (some "B") none (some "/chat") none))).title = "T"
      ∧ (handlePush_static (PushData.json
          (PushPayload.mk (some "T") (some "B") none (some "/chat") none))).body = "B"
      ∧ (handlePush_static (PushData.json
          (PushPayload.mk (some "T") (some "B") none (some "/chat") none))).data
        = some (NotifData.mk "/chat" none)) :=
  ⟨⟨by decide, by decide⟩,
   (C4_push_json_fields (PushPayload.mk (some "T") (some "B") none (some "/chat") none)
     "T" "B" (by decide) (by decide)).1⟩

/-- Claim C6: every notification click closes the notification; when some
open client's URL contains the origin, the first such client is focused —
receiving exactly one OPEN_CHAT message when the envelope carries a
non-null (truthy) chatMessage, and no window is opened — and when no such
client exists exactly one window is opened at the envelope's url,
defaulting to "/" when the envelope is absent. -/
theorem C6_notification_click (origin : String) (nd : Option NotifData)
    (cls : List ClientWin) :
    (handleClick_static origin nd cls).closed = true
    ∧ (∀ c, cls.find? (fun c2 => strIncludes c2.url origin) = some c →
        ((∀ m, nd.bind (fun d => d.chatMessage) = some m → m ≠ "" →
            (handleClick_static origin nd cls).action = ClickAction.focusAndMessage c m)
         ∧ (nd.bind (fun d => d.chatMessage) = none →
            (handleClick_static origin nd cls).action = ClickAction.focusOnly c)))
    ∧ (cls.find? (fun c2 => strIncludes c2.url origin) = none →
        ((nd = none → (handleClick_static origin nd cls).action = ClickAction.openWindow "/")
         ∧ (∀ d, nd = some d → d.url ≠ "" →
            (handleClick_static origin nd cls).action = ClickAction.openWindow d.url))) := by
  refine ⟨?_, fun c hc => ⟨fun m hm hne => ?_, fun hm => ?_⟩,
    fun hf => ⟨fun hnd => ?_, fun d hnd hne => ?_⟩⟩
  · rcases hf : cls.find? (fun c2 => strIncludes c2.url origin) with _ | c
    · simp [handleClick_static, hf]
    · rcases nd with _ | d
      · simp [handleClick_static, hf]
      · rcases hcm : d.chatMessage with _ | m
        · simp [handleClick_static, hf, hcm]
        · by_cases hm : m = "" <;> simp [handleClick_static, hf, hcm, hm]
  · rcases nd with _ | d
    · simp at hm
    · simp only [Option.some_bind] at hm
      simp [handleClick_static, hc, hm, hne]
  · rcases nd with _ | d
    · simp [handleClick_static, hc]
    · simp only [Option.some_bind] at hm
      simp [handleClick_static, hc, hm]
  · subst hnd
    simp [handleClick_static, hf, jsOr]
  · subst hnd
    simp [handleClick_static, hf, jsOr, hne]

/-- Witness for C6: a matching open tab receives the chat message; with no
open tab a window opens at the envelope url. -/
theorem C6_notification_click_witness :
    (handleClick_static "https://col.pro" (some (NotifData.mk "/chat" (some "hi")))
        [ClientWin.mk "https://col.pro/app"]).action
      = ClickAction.focusAndMessage (ClientWin.mk "https://col.pro/app") "hi"
    ∧ (handleClick_static "https://col.pro" (some (NotifData.mk "/chat" (some "hi"))) []).action
      = ClickAction.openWindow "/chat" := by
  constructor
  · exact ((C6_notification_click "https://col.pro" (some (NotifData.mk "/chat" (some "hi")))
      [ClientWin.mk "https://col.pro/app"]).2.1 (ClientWin.mk "https://col.pro/app")
      (by decide)).1 "hi" rfl (by decide)
  · exact ((C6_notification_click "https://col.pro" (some (NotifData.mk "/chat" (some "hi")))
      []).2.2 rfl).2 (NotifData.mk "/chat" (some "hi")) rfl (by decide)

/-- Counterexample to C7 as stated ("in each variant"): the static variant
registers no message listener, so a SKIP_WAITING message leaves a waiting
static worker entirely unchanged — it does not transition out of the
waiting state. -/
theorem C7_cex :
    stepStatic (SWEvent.messageEv (MsgData.obj (some "SKIP_WAITING")))
        (WorkerState.mk [] false)
      = WorkerState.mk [] false := rfl

/-- Claim C7 (amended): in the landing variant a message whose data is
an object with type SKIP_WAITING calls skipWaiting (and touches nothing
else), and any other message leaves the worker unchanged; the static
variant has no message listener, so every message — including
SKIP_WAITING — leaves it unchanged. -/
theorem C7_message_skip_waiting (w : WorkerState) (m : MsgData)
    (hm : m ≠ MsgData.obj (some "SKIP_WAITING")) :
    (stepLanding (SWEvent.messageEv (MsgData.obj (some "SKIP_WAITING"))) w).skipW = true
    ∧ (stepLanding (SWEvent.messageEv (MsgData.obj (some "SKIP_WAITING"))) w).store = w.store
    ∧ stepLanding (SWEvent.messageEv m) w = w
    ∧ stepStatic (SWEvent.messageEv m) w = w
    ∧ stepStatic (SWEvent.messageEv (MsgData.obj (some "SKIP_WAITING"))) w = w := by
  refine ⟨by simp [stepLanding, handleMessage_landing], by simp [stepLanding, handleMessage_landing], ?_, rfl, rfl⟩
  rcases m with t | _
  · rcases t with _ | t
    · rfl
    · show handleMessage_landing (MsgData.obj (some t)) w = w
      have ht : t ≠ "SKIP_WAITING" := fun ht => hm (by rw [ht])
      simp [handleMessage_landing, ht]
  · rfl

/-- Witness for C7: a nullish message, which is not SKIP_WAITING. -/
theorem C7_message_skip_waiting_witness :
    MsgData.nullish ≠ MsgData.obj (some "SKIP_WAITING")
    ∧ (stepLanding (SWEvent.messageEv (MsgData.obj (some "SKIP_WAITING")))
        (WorkerState.mk [] false)).skipW = true
    ∧ stepLanding (SWEvent.messageEv MsgData.nullish) (WorkerState.mk [] false)
        = WorkerState.mk [] false
    ∧ stepStatic (SWEvent.messageEv MsgData.nullish) (WorkerState.mk [] false)
        = WorkerState.mk [] false := by
  have h := C7_message_skip_waiting (WorkerState.mk [] false) MsgData.nullish (by decide)
  exact ⟨by decide, h.1, h.2.2.1, h.2.2.2.1⟩

/-- Counterexample to C8 as stated: on the same message event the two
variants behave differently in a way no cache-name, icon-path or manifest
difference accounts for — the landing worker calls skipWaiting on
SKIP_WAITING while the static worker, which has no message listener at
all, stays unchanged. -/
theorem C8_cex :
    stepStatic (SWEvent.messageEv (MsgData.obj (some "SKIP_WAITING")))
        (WorkerState.mk [] false)
      = WorkerState.mk [] false
    ∧ stepLanding (SWEvent.messageEv (MsgData.obj (some "SKIP_WAITING")))
        (WorkerState.mk [] false)
      = WorkerState.mk [] true :=
  ⟨rfl, by simp [stepLanding, handleMessage_landing]⟩

/-- Claim C8 (amended): given the same cache name, manifest and icon/badge
paths, the two variants agree on fetch events whose URL lacks "/ws/", on
install whenever addAll succeeds, on every notificationclick event, and on
every field of the shown push notification except the badge; they differ
(beyond configuration) in the static-only "/ws/" fetch exclusion, the
static-only install catch, the fallback badge, and the landing-only
message listener. -/
theorem C8_variants_agree_modulo_config (n : String) (net : Request → Option Response)
    (cs : CacheStorage) (req : Request) (icon badge : String) (d : PushData)
    (origin : String) (nd : Option NotifData) (cls : List ClientWin)
    (assets : List String) (netA : String → Option Response) (c2 : Cache)
    (hw : strIncludes req.url "/ws/" = false)
    (hadd : cacheAddAll netA (csLookup (csOpen cs n) n) assets = some c2) :
    fetchStaticWith n net cs req = fetchLandingWith n net cs req
    ∧ installStaticWith n assets netA cs = installLandingWith n assets netA cs
    ∧ ((pushStaticWith icon badge d).title = (pushLandingWith icon badge d).title
       ∧ (pushStaticWith icon badge d).body = (pushLandingWith icon badge d).body
       ∧ (pushStaticWith icon badge d).icon = (pushLandingWith icon badge d).icon
       ∧ (pushStaticWith icon badge d).vibrate = (pushLandingWith icon badge d).vibrate
       ∧ (pushStaticWith icon badge d).data = (pushLandingWith icon badge d).data
       ∧ (pushStaticWith icon badge d).actions = (pushLandingWith icon badge d).actions)
    ∧ handleClick_static origin nd cls = handleClick_landing origin nd cls := by
  refine ⟨?_, ?_, ?_, ?_⟩
  · unfold fetchStaticWith fetchLandingWith
    by_cases h1 : req.method ≠ "GET"
    · rw [if_pos h1, if_pos h1]
    · rw [if_neg h1, if_neg h1, if_neg (by simp [hw])]
  · simp only [installStaticWith, installLandingWith, hadd]
  · rcases d with _ | p | s <;> exact ⟨rfl, rfl, rfl, rfl, rfl, rfl⟩
  · cases hf : cls.find? (fun c => strIncludes c.url origin) with
    | none => simp [handleClick_static, handleClick_landing, hf]
    | some c =>
        rcases nd with _ | dd
        · simp [handleClick_static, handleClick_landing, hf]
        · rcases hcm : dd.chatMessage with _ | m
          · simp [handleClick_static, handleClick_landing, hf, hcm]
          · by_cases hm : m = "" <;>
              simp [handleClick_static, handleClick_landing, hf, hcm, hm]

/-- Witness for C8: a non-websocket GET request and a one-asset manifest
whose addAll succeeds. -/
theorem C8_variants_agree_modulo_config_witness :
    (strIncludes "/app" "/ws/" = false
      ∧ cacheAddAll (fun u => some (Response.mk true u))
          (csLookup (csOpen [] "c-v1") "c-v1") ["/"]
        = some [(Request.mk "GET" "/", Response.mk true "/")])
    ∧ (fetchStaticWith "c-v1" (fun _ => none) [] (Request.mk "GET" "/app")
        = fetchLandingWith "c-v1" (fun _ => none) [] (Request.mk "GET" "/app")
      ∧ installStaticWith "c-v1" ["/"] (fun u => some (Response.mk true u)) []
        = installLandingWith "c-v1" ["/"] (fun u => some (Response.mk true u)) []) := by
  have h := C8_variants_agree_modulo_config "c-v1" (fun _ => none) [] (Request.mk "GET" "/app")
    "/i.png" "/i.png" PushData.absent "o" none [] ["/"]
    (fun u => some (Response.mk true u)) [(Request.mk "GET" "/", Response.mk true "/")]
    (by decide) rfl
  exact ⟨⟨by decide, rfl⟩, h.1, h.2.1⟩

/-! ## Step-preservation helpers for the invariant claim -/

theorem fetchStaticWith_store (n : String) (net : Request → Option Response)
    (cs : CacheStorage) (req : Request) :
    (fetchStaticWith n net cs req).2 = cs
    ∨ ∃ res, (fetchStaticWith n net cs req).2 = csPut cs n req res := by
  unfold fetchStaticWith
  by_cases h1 : req.method ≠ "GET"
  · left; rw [if_pos h1]
  · rw [if_neg h1]
    by_cases h2 : strIncludes req.url "/ws/"
    · left; rw [if_pos h2]
    · rw [if_neg h2]
      rcases hnet : net req with _ | res
      · rcases hcm : csMatch cs req with _ | r
        · left; simp [hnet, hcm]
        · left; simp [hnet, hcm]
      · by_cases hok : res.ok
        · right; exact ⟨res, by simp [hnet, hok]⟩
        · left; simp [hnet, hok]

theorem stepStatic_keeps_current (e : SWEvent) (w : WorkerState)
    (h : "colegiospro-v1" ∈ cachesKeys w.store) :
    "colegiospro-v1" ∈ cachesKeys (stepStatic e w).store := by
  cases e with
  | installEv net =>
      show "colegiospro-v1" ∈ cachesKeys (handleInstall_static net w.store).1
      rcases hadd : cacheAddAll net
          (csLookup (csOpen w.store "colegiospro-v1") "colegiospro-v1") staticAssets with _ | c
      · have hst : (handleInstall_static net w.store).1 = csOpen w.store "colegiospro-v1" := by
          simp [handleInstall_static, installStaticWith, hadd]
        rw [hst]
        exact (mem_keys_csOpen _ _ _).mpr (Or.inr rfl)
      · have hst : (handleInstall_static net w.store).1
            = csUpdate (csOpen w.store "colegiospro-v1") "colegiospro-v1" (fun _ => c) := by
          simp [handleInstall_static, installStaticWith, hadd]
        rw [hst, mem_keys_csUpdate]
        exact (mem_keys_csOpen _ _ _).mpr (Or.inr rfl)
  | activateEv =>
      show "colegiospro-v1" ∈ cachesKeys (handleActivate_static w.store)
      rcases (mem_cachesKeys _ _).mp h with ⟨b, hb, hb1⟩
      exact (mem_cachesKeys _ _).mpr
        ⟨b, (mem_handleActivateWith _ _ b).mpr ⟨hb, hb1⟩, hb1⟩
  | fetchEv net req =>
      show "colegiospro-v1" ∈ cachesKeys (fetchStaticWith "colegiospro-v1" net w.store req).2
      rcases fetchStaticWith_store "colegiospro-v1" net w.store req with hs | ⟨res, hs⟩
      · rw [hs]; exact h
      · rw [hs]; exact (mem_keys_csPut _ _ _ _ _).mpr (Or.inl h)
  | pushEv d => exact h
  | clickEv nd cls => exact h
  | messageEv m => exact h

theorem stepStatic_frame (e : SWEvent) (w : WorkerState) (k : String)
    (hk : k ≠ "colegiospro-v1") (h : k ∈ cachesKeys (stepStatic e w).store) :
    k ∈ cachesKeys w.store ∧ csLookup (stepStatic e w).store k = csLookup w.store k := by
  cases e with
  | installEv net =>
      rcases hadd : cacheAddAll net
          (csLookup (csOpen w.store "colegiospro-v1") "colegiospro-v1") staticAssets with _ | c
      · have hst : (stepStatic (SWEvent.installEv net) w).store
            = csOpen w.store "colegiospro-v1" := by
          show (handleInstall_static net w.store).1 = _
          simp [handleInstall_static, installStaticWith, hadd]
        rw [hst] at h ⊢
        rcases (mem_keys_csOpen _ _ _).mp h with h2 | h2
        · exact ⟨h2, csLookup_csOpen_ne _ _ _ hk⟩
        · exact absurd h2 hk
      · have hst : (stepStatic (SWEvent.installEv net) w).store
            = csUpdate (csOpen w.store "colegiospro-v1") "colegiospro-v1" (fun _ => c) := by
          show (handleInstall_static net w.store).1 = _
          simp [handleInstall_static, installStaticWith, hadd]
        rw [hst] at h ⊢
        rw [mem_keys_csUpdate] at h
        rcases (mem_keys_csOpen _ _ _).mp h with h2 | h2
        · refine ⟨h2, ?_⟩
          rw [csLookup_csUpdate_ne _ _ _ _ hk, csLookup_csOpen_ne _ _ _ hk]
        · exact absurd h2 hk
  | activateEv =>
      exfalso
      have hstep : (stepStatic SWEvent.activateEv w).store
          = handleActivateWith "colegiospro-v1" w.store := rfl
      rw [hstep] at h
      rcases (mem_cachesKeys _ _).mp h with ⟨b, hb, hb1⟩
      exact hk (hb1 ▸ ((mem_handleActivateWith _ _ b).mp hb).2)
  | fetchEv net req =>
      have hstep : (stepStatic (SWEvent.fetchEv net req) w).store
          = (fetchStaticWith "colegiospro-v1" net w.store req).2 := rfl
      rw [hstep] at h ⊢
      rcases fetchStaticWith_store "colegiospro-v1" net w.store req with hs | ⟨res, hs⟩
      · rw [hs] at h ⊢; exact ⟨h, rfl⟩
      · rw [hs] at h ⊢
        rcases (mem_keys_csPut _ _ _ _ _).mp h with h2 | h2
        · exact ⟨h2, csLookup_csPut_ne _ _ _ _ _ hk⟩
        · exact absurd h2 hk
  | pushEv d => exact ⟨h, rfl⟩
  | clickEv nd cls => exact ⟨h, rfl⟩
  | messageEv m => exact ⟨h, rfl⟩

theorem stepStatic_foldl_keeps (evs : List SWEvent) (w : WorkerState)
    (h : "colegiospro-v1" ∈ cachesKeys w.store) :
    "colegiospro-v1" ∈ cachesKeys ((evs.foldl (fun w2 e2 => stepStatic e2 w2) w).store) := by
  induction evs generalizing w with
  | nil => exact h
  | cons e evs ih => exact ih _ (stepStatic_keeps_current e w h)

/-- Claim C9: the worker never deletes its current version bucket and never
writes to any other bucket — on any single event the current bucket stays
enumerable and every other surviving bucket is byte-for-byte unchanged, and
across any sequence of events the current bucket survives. -/
theorem C9_current_bucket_survives (e : SWEvent) (w : WorkerState) (k : String)
    (evs : List SWEvent) (hk : k ≠ "colegiospro-v1")
    (hcur : "colegiospro-v1" ∈ cachesKeys w.store) :
    "colegiospro-v1" ∈ cachesKeys (stepStatic e w).store
    ∧ (k ∈ cachesKeys (stepStatic e w).store →
        k ∈ cachesKeys w.store ∧ csLookup (stepStatic e w).store k = csLookup w.store k)
    ∧ "colegiospro-v1" ∈ cachesKeys ((evs.foldl (fun w2 e2 => stepStatic e2 w2) w).store) :=
  ⟨stepStatic_keeps_current e w hcur, stepStatic_frame e w k hk,
   stepStatic_foldl_keeps evs w hcur⟩

/-- Witness for C9: activation with a stale bucket present. -/
theorem C9_current_bucket_survives_witness :
    ("other" ≠ "colegiospro-v1"
      ∧ "colegiospro-v1" ∈ cachesKeys
          (WorkerState.mk [("colegiospro-v1", []), ("other", [])] false).store)
    ∧ ("colegiospro-v1" ∈ cachesKeys (stepStatic SWEvent.activateEv
          (WorkerState.mk [("colegiospro-v1", []), ("other", [])] false)).store
      ∧ ("other" ∈ cachesKeys (stepStatic SWEvent.activateEv
            (WorkerState.mk [("colegiospro-v1", []), ("other", [])] false)).store →
          "other" ∈ cachesKeys
            (WorkerState.mk [("colegiospro-v1", []), ("other", [])] false).store
          ∧ csLookup (stepStatic SWEvent.activateEv
              (WorkerState.mk [("colegiospro-v1", []), ("other", [])] false)).store "other"
            = csLookup
              (WorkerState.mk [("colegiospro-v1", []), ("other", [])] false).store "other")
      ∧ "colegiospro-v1" ∈ cachesKeys
          (([SWEvent.activateEv].foldl (fun w2 e2 => stepStatic e2 w2)
            (WorkerState.mk [("colegiospro-v1", []), ("other", [])] false)).store)) :=
  ⟨⟨by decide, by decide⟩,
   C9_current_bucket_survives SWEvent.activateEv
     (WorkerState.mk [("colegiospro-v1", []), ("other", [])] false) "other"
     [SWEvent.activateEv] (by decide) (by decide)⟩

/-- Claim C10: a push whose body fails JSON parsing (or whose data is
absent) yields a notification carrying no data envelope and no actions —
in the static variant exactly the default title, the text body and the
default icon, with no badge and no vibration — and a click on such a
notification never posts an OPEN_CHAT message and, with no matching open
client, opens the default URL "/". -/
theorem C10_fallback_notification (s : String) (origin : String) (cls : List ClientWin) :
    ((handlePush_static (PushData.text s)).data = none
      ∧ (handlePush_static (PushData.text s)).actions = []
      ∧ (handlePush_static (PushData.text s)).badge = none
      ∧ (handlePush_static (PushData.text s)).vibrate = []
      ∧ (handlePush_static (PushData.text s)).title = "ColegiosPro"
      ∧ (handlePush_static (PushData.text s)).body = s
      ∧ (handlePush_static (PushData.text s)).icon = "/static/img/icon-192.png"
      ∧ (handlePush_static PushData.absent).data = none
      ∧ (handlePush_static PushData.absent).actions = []
      ∧ (handlePush_landing (PushData.text s)).data = none
      ∧ (handlePush_landing (PushData.text s)).actions = [])
    ∧ (∀ c m, (handleClick_static origin (handlePush_static (PushData.text s)).data cls).action
        ≠ ClickAction.focusAndMessage c m)
    ∧ (cls.find? (fun c2 => strIncludes c2.url origin) = none →
        (handleClick_static origin (handlePush_static (PushData.text s)).data cls).action
          = ClickAction.openWindow "/") := by
  refine ⟨⟨rfl, rfl, rfl, rfl, rfl, rfl, rfl, rfl, rfl, rfl, rfl⟩, ?_, ?_⟩
  · intro c m
    rcases hf : cls.find? (fun c2 => strIncludes c2.url origin) with _ | c0 <;>
      simp [handleClick_static, handlePush_static, pushStaticWith, hf]
  · intro hf
    simp [handleClick_static, handlePush_static, pushStaticWith, hf, jsOr]

/-- Witness for C10: no open client, so the click opens "/". -/
theorem C10_fallback_notification_witness :
    List.find? (fun c2 => strIncludes c2.url "https://col.pro") ([] : List ClientWin) = none
    ∧ (handleClick_static "https://col.pro"
        (handlePush_static (PushData.text "hello")).data []).action
      = ClickAction.openWindow "/" :=
  ⟨rfl, (C10_fallback_notification "hello" "https://col.pro" []).2.2 rfl⟩

end ColegiosPro
